import Mathlib

/-! Lomtec H264 pipeline: statistics counters, decoder/processor loops, orchestrator.

A shallow embedding of `Lomtec_H264.h` / `Lomtec_H264.cpp`.

* `FloatVal`: the values of `float` and `double`, with round-to-nearest-even conversions,
  product, quotient and comparison computed in integer arithmetic.
* `AStatsCounter`, `StatsCounter`, `StatsCounterChrono`: the two statistics counters of the
  header.  Clock readings are arguments.
* `Pipeline`: the two worker lambdas (`VideoStreamDecoder::decode`,
  `VideoStreamProcessor::process`) as a step function, one program point per source statement,
  driven by a schedule that picks which thread performs its next statement.  The mutex
  `buffMutex` is a state variable: the push and the emptiness snapshot run between an acquire
  and a release, `front()` and `pop()` run without it.  A `front()` or `pop()` that is not
  separated from a push by a lock acquisition of the processor is a data race; the run is
  marked and goes on statement by statement.  A run whose processor throws executes nothing
  further.
* `Orchestrator`: `Orchestrator::run` on the controller thread, driven by the list of characters
  `getchar` delivers.
-/

namespace Lomtec

/-! ## Floating-point values

The C++ types `float` and `double` are IEEE binary32 and binary64.  A finite value is kept as
an integer significand and a binary exponent; every operation computes the exact result in
integer arithmetic and rounds it to the nearest representable value, ties to even.  The sign
of a zero is not kept. -/

/-- A binary floating-point format: number of significand bits and range of the exponent of a
normal value. -/
structure BinaryFormat where
  precision : Nat
  emin : Int
  emax : Int

/-- The format of `float`. -/
def binary32 : BinaryFormat := { precision := 24, emin := -126, emax := 127 }

/-- The format of `double`. -/
def binary64 : BinaryFormat := { precision := 53, emin := -1022, emax := 1023 }

/-- A floating-point value: `finite m e` stands for `m * 2 ^ e`. -/
inductive FloatVal where
  | finite (m : Int) (e : Int)
  | posInf
  | negInf
  | nan
  deriving DecidableEq

/-- Position of the highest set bit, by halving at most `fuel` times. -/
def log2Fuel : Nat → Nat → Nat
  | 0, _ => 0
  | fuel + 1, n => if 2 ≤ n then log2Fuel fuel (n / 2) + 1 else 0

/-- Position of the highest set bit of `n`, that is the integer part of its binary logarithm. -/
def ilog2 (n : Nat) : Nat := log2Fuel n n

/-- The exponent `b` with `2 ^ b ≤ N / D < 2 ^ (b + 1)`, for positive `N` and `D`. -/
def binade (N D : Nat) : Int :=
  if D * 2 ^ ((ilog2 N : Int) - (ilog2 D : Int)).toNat
      ≤ N * 2 ^ ((ilog2 D : Int) - (ilog2 N : Int)).toNat then
    (ilog2 N : Int) - (ilog2 D : Int)
  else (ilog2 N : Int) - (ilog2 D : Int) - 1

/-- The quotient `N / D` rounded to the nearest integer, a tie going to the even one. -/
def divRoundHalfEven (N D : Nat) : Nat :=
  if 2 * (N % D) < D then N / D
  else if D < 2 * (N % D) then N / D + 1
  else if (N / D) % 2 = 0 then N / D else N / D + 1

/-- The exponent of the last significand bit when `N / D` is rounded to the format: the binade
of the quotient, not below that of the smallest normal value, less the significand width. -/
def quantumExp (fmt : BinaryFormat) (N D : Nat) : Int :=
  max (binade N D) fmt.emin - ((fmt.precision : Int) - 1)

/-- The significand of `N / D` rounded to the format, in units of `2 ^ quantumExp`. -/
def significand (fmt : BinaryFormat) (N D : Nat) : Nat :=
  divRoundHalfEven (N * 2 ^ (-(quantumExp fmt N D)).toNat) (D * 2 ^ (quantumExp fmt N D).toNat)

/-- The rational `n / D` (`D` positive) rounded to the format; a result beyond the largest
finite value is an infinity. -/
def roundQuotient (fmt : BinaryFormat) (n : Int) (D : Nat) : FloatVal :=
  if n = 0 then FloatVal.finite 0 0
  else if fmt.emax < (ilog2 (significand fmt n.natAbs D) : Int) + quantumExp fmt n.natAbs D then
    (if 0 < n then FloatVal.posInf else FloatVal.negInf)
  else
    FloatVal.finite
      (if 0 < n then (significand fmt n.natAbs D : Int) else -(significand fmt n.natAbs D : Int))
      (quantumExp fmt n.natAbs D)

/-- The value `m * 2 ^ e` rounded to the format. -/
def roundDyadic (fmt : BinaryFormat) (m e : Int) : FloatVal :=
  roundQuotient fmt (m * 2 ^ e.toNat) (2 ^ (-e).toNat)

namespace FloatVal

/-- Conversion of an integer to the format. -/
def ofInt (fmt : BinaryFormat) (n : Int) : FloatVal := roundQuotient fmt n 1

/-- Conversion of a value to a narrower format. -/
def narrow (fmt : BinaryFormat) : FloatVal → FloatVal
  | finite m e => roundDyadic fmt m e
  | x => x

/-- The sign rule for a product or quotient involving an infinity. -/
def signedInf (positive : Bool) : FloatVal := if positive then posInf else negInf

/-- Floating-point multiplication in the format. -/
def mul (fmt : BinaryFormat) : FloatVal → FloatVal → FloatVal
  | finite m e, finite m' e' => roundDyadic fmt (m * m') (e + e')
  | finite m _, posInf => if m = 0 then nan else signedInf (decide (0 < m))
  | finite m _, negInf => if m = 0 then nan else signedInf (decide (m < 0))
  | posInf, finite m _ => if m = 0 then nan else signedInf (decide (0 < m))
  | negInf, finite m _ => if m = 0 then nan else signedInf (decide (m < 0))
  | posInf, posInf => posInf
  | posInf, negInf => negInf
  | negInf, posInf => negInf
  | negInf, negInf => posInf
  | _, _ => nan

/-- Floating-point division in the format: a non-zero value over zero is an infinity, zero over
zero is a NaN. -/
def div (fmt : BinaryFormat) : FloatVal → FloatVal → FloatVal
  | finite m e, finite m' e' =>
      if m' = 0 then (if m = 0 then nan else signedInf (decide (0 < m)))
      else roundQuotient fmt (m * m'.sign * 2 ^ (e - e').toNat) (m'.natAbs * 2 ^ (e' - e).toNat)
  | finite _ _, posInf => finite 0 0
  | finite _ _, negInf => finite 0 0
  | posInf, finite m' _ => signedInf (decide (0 ≤ m'))
  | negInf, finite m' _ => signedInf (decide (m' < 0))
  | _, _ => nan

/-- The comparison `<`: false as soon as a NaN is involved. -/
def lt : FloatVal → FloatVal → Bool
  | finite m e, finite m' e' => decide (m * 2 ^ (e - e').toNat < m' * 2 ^ (e' - e).toNat)
  | finite _ _, posInf => true
  | negInf, finite _ _ => true
  | negInf, posInf => true
  | _, _ => false

end FloatVal

/-- The constant `nanosec_2_sec`: the literal `.000'000'001` is a `double`, narrowed to
`float` by the initialisation. -/
def nanosec_2_sec : FloatVal := FloatVal.narrow binary32 (roundQuotient binary64 1 1000000000)

/-- The increment `++x` on an `unsigned long` of `bits` bits. -/
def ulongInc (bits : Nat) (x : Nat) : Nat := (x + 1) % 2 ^ bits

/-! ## Statistics counters (`Lomtec_H264.h` lines 26-106) -/

/-- Data members of `AStatsCounter`; the two `float` members are floating-point values. -/
structure AStatsCounter where
  framesProcessed : Nat
  avgSpeed_fps : FloatVal
  processingTime_s : FloatVal
  startTime : Int
  deriving DecidableEq

namespace AStatsCounter

/-- A freshly constructed counter: every member is zero-initialised. -/
def fresh : AStatsCounter :=
  { framesProcessed := 0, avgSpeed_fps := FloatVal.finite 0 0,
    processingTime_s := FloatVal.finite 0 0, startTime := 0 }

/-- The member `AStatsCounter::frameTick`, which increments `_framesProcessed`. -/
def frameTick (bits : Nat) (c : AStatsCounter) : AStatsCounter :=
  { c with framesProcessed := ulongInc bits c.framesProcessed }

end AStatsCounter

namespace StatsCounter

/-- The member `StatsCounter::printStatistics`, `now` being the value of `time(0)` in seconds.
Line 64 converts the integer difference to `float`; line 65 converts the frame count to
`float` and divides.  The three printed values are the members assigned here and the count. -/
def printStatistics (now : Int) (c : AStatsCounter) : AStatsCounter :=
  { c with processingTime_s := FloatVal.ofInt binary32 (now - c.startTime)
           avgSpeed_fps :=
             FloatVal.div binary32 (FloatVal.ofInt binary32 (c.framesProcessed : Int))
               (FloatVal.ofInt binary32 (now - c.startTime)) }

/-- The member `StatsCounter::startCount`, `now` being the value of `time(0)`. -/
def startCount (now : Int) (c : AStatsCounter) : AStatsCounter :=
  if c.startTime = 0 then { c with startTime := now } else c

end StatsCounter

namespace StatsCounterChrono

/-- The member `StatsCounterChrono::printStatistics`, `nowTime` being the tick count, in
nanoseconds, of `high_resolution_clock::now().time_since_epoch()`.  Line 92 converts the
integer difference to `float` and multiplies by `nanosec_2_sec`; line 93 converts the frame
count to `float` and divides. -/
def printStatistics (nowTime : Int) (c : AStatsCounter) : AStatsCounter :=
  { c with processingTime_s :=
             FloatVal.mul binary32 (FloatVal.ofInt binary32 (nowTime - c.startTime))
               nanosec_2_sec
           avgSpeed_fps :=
             FloatVal.div binary32 (FloatVal.ofInt binary32 (c.framesProcessed : Int))
               (FloatVal.mul binary32 (FloatVal.ofInt binary32 (nowTime - c.startTime))
                 nanosec_2_sec) }

/-- The member `StatsCounterChrono::startCount`, `now` being the tick count of the high
resolution clock. -/
def startCount (now : Int) (c : AStatsCounter) : AStatsCounter :=
  if c.startTime = 0 then { c with startTime := now } else c

end StatsCounterChrono

/-- The concrete class behind a `unique_ptr<AStatsCounter>`. -/
inductive StatsKind where
  | ctime
  | chrono
  deriving DecidableEq

/-- Virtual dispatch of `printStatistics`. -/
def StatsKind.printStatistics : StatsKind → Int → AStatsCounter → AStatsCounter
  | StatsKind.ctime => StatsCounter.printStatistics
  | StatsKind.chrono => StatsCounterChrono.printStatistics

/-- Virtual dispatch of `startCount`. -/
def StatsKind.startCount : StatsKind → Int → AStatsCounter → AStatsCounter
  | StatsKind.ctime => StatsCounter.startCount
  | StatsKind.chrono => StatsCounterChrono.startCount

/-! ## The worker loops (`Lomtec_H264.cpp` lines 63-179) -/

namespace Pipeline

/-- A `cv::Mat` image: `none` is the empty matrix a failed read leaves behind, `some a` an image
with payload `a`. -/
abbrev Mat (α : Type) := Option α

/-- The two threads that lock `buffMutex`. -/
inductive Owner where
  | decoder
  | processor
  deriving DecidableEq

/-- Program points of the `feedWorker` lambda of `VideoStreamDecoder::decode`. -/
inductive DecoderPc where
  /-- Line 73, evaluation of the loop condition. -/
  | loopTest
  /-- Line 75, reading the next frame from the source. -/
  | read
  /-- Line 76, incrementing the frame counter. -/
  | count
  /-- Line 78, loading the decoder's quit flag. -/
  | quitCheck
  /-- Line 85, the `lock_guard` acquiring `buffMutex`. -/
  | lock
  /-- Line 95, the push, with the mutex held. -/
  | push
  /-- Line 96, the end of the block releasing `buffMutex`. -/
  | unlock
  /-- Line 100, storing the completion flag. -/
  | signalDone
  /-- Line 101, the final message. -/
  | report
  /-- The lambda has returned. -/
  | finished
  deriving DecidableEq

/-- Program points of the `processWorker` lambda of `VideoStreamProcessor::process`. -/
inductive ProcessorPc where
  /-- Line 120, the `lock_guard` acquiring `buffMutex`. -/
  | lock
  /-- Line 121, the emptiness snapshot, with the mutex held. -/
  | snapshot
  /-- Line 122, the end of the block releasing `buffMutex`. -/
  | unlock
  /-- Line 124, loading the processor's quit flag. -/
  | quitCheck
  /-- Line 129, testing the snapshot. -/
  | emptyTest
  /-- Line 131, loading the completion flag. -/
  | doneCheck
  /-- Lines 136-137, the short wait before the next iteration. -/
  | idle
  /-- Line 140, copying the head of the queue, without the mutex. -/
  | front
  /-- Line 147, the frame operation. -/
  | apply
  /-- Line 148, the statistics tick. -/
  | tick
  /-- Lines 150-151, showing the frame. -/
  | display
  /-- Line 153, removing the head of the queue, without the mutex. -/
  | pop
  /-- Line 156, the final statistics. -/
  | report
  /-- The lambda has returned. -/
  | finished
  deriving DecidableEq

/-- What the two lambdas capture and never write. -/
structure Env (α : Type) where
  /-- Width of `unsigned long` on the platform. -/
  ulongBits : Nat
  /-- Value of `source.get(CAP_PROP_FRAME_COUNT)`, a `double`: the advertised frame count. -/
  frameNum : FloatVal
  /-- The images the source really holds; every read past them yields the empty matrix. -/
  video : List α
  /-- The colour operation of lines 166-178 on a non-empty image; `none` when one of its
  OpenCV calls throws. -/
  filter : α → Option α
  /-- The class of the statistics counter. -/
  statsKind : StatsKind
  /-- The clock reading seen by the processor's final `printStatistics`. -/
  reportClock : Int

/-- The member `VideoStreamProcessor::applyOperation`: `none` when it throws.  Its first
statement, `cv::cvtColor`, rejects an empty matrix with an exception. -/
def applyOperation {α : Type} (env : Env α) : Mat α → Option (Mat α)
  | none => none
  | some a => (env.filter a).map some

/-- The loop condition of line 73, `frameCnt < frameNum`: the `unsigned long` is converted to
`double` and the two `double` values are compared. -/
def loopCondition {α : Type} (env : Env α) (frameCnt : Nat) : Bool :=
  FloatVal.lt (FloatVal.ofInt binary64 (frameCnt : Int)) env.frameNum

/-- Shared objects, the locals of both lambdas, and history variables. -/
structure State (α : Type) where
  /-- The queue `_buffer`; its front is the head of the list. -/
  buffer : List (Mat α)
  /-- The global `buffMutex`: the thread holding it, if any. -/
  mutex : Option Owner
  /-- The decoder's `_quitLoop`. -/
  decoderQuitLoop : Bool
  /-- The processor's `_quitLoop`. -/
  processorQuitLoop : Bool
  /-- The processor's `_decodingDone`. -/
  decodingDone : Bool
  /-- The statistics counter. -/
  counter : AStatsCounter
  /-- Program point of the decoder. -/
  dpc : DecoderPc
  /-- The decoder's local `frame`. -/
  decoderFrame : Mat α
  /-- The decoder's local `frameCnt`. -/
  frameCnt : Nat
  /-- Number of reads the source has served. -/
  sourcePos : Nat
  /-- Program point of the processor. -/
  ppc : ProcessorPc
  /-- The processor's local `empty`. -/
  empty : Bool
  /-- The processor's local `frame`. -/
  processorFrame : Mat α
  /-- History: every matrix pushed so far, oldest first. -/
  pushed : List (Mat α)
  /-- History: every matrix `applyOperation` has transformed so far, oldest first. -/
  transformed : List (Mat α)
  /-- History: number of stores to the completion flag. -/
  doneStores : Nat
  /-- History: `front()` or `pop()` was executed on an empty queue. -/
  violation : Bool
  /-- History: the decoder has pushed since the processor last acquired `buffMutex`. -/
  pushInWindow : Bool
  /-- History: the processor has executed `front()` or `pop()` since it last acquired
  `buffMutex`. -/
  headInWindow : Bool
  /-- History: a push and a `front()` or `pop()` have been executed with no lock acquisition of
  the processor between them.  Nothing orders the two accesses to the queue (the decoder's
  release is only met by the processor's next acquire): a data race, after which the C++
  program has no defined behaviour.  The steps below go on statement by statement all the
  same; what they compute once the flag is set is one behaviour among those the program may
  show. -/
  raced : Bool
  /-- History: an exception has left the processor lambda, which has no handler, so
  `std::terminate` has ended the process. -/
  terminated : Bool
  deriving DecidableEq

/-- The state when both lambdas start: empty queue, free mutex, flags as constructed, and the
counter the caller supplies. -/
def init (α : Type) (counter : AStatsCounter) : State α :=
  { buffer := [], mutex := none, decoderQuitLoop := false, processorQuitLoop := false,
    decodingDone := false, counter := counter, dpc := DecoderPc.loopTest, decoderFrame := none,
    frameCnt := 0, sourcePos := 0, ppc := ProcessorPc.lock, empty := false,
    processorFrame := none, pushed := [], transformed := [], doneStores := 0,
    violation := false, pushInWindow := false, headInWindow := false, raced := false,
    terminated := false }

/-- One statement of the decoder lambda.  At `lock` the decoder waits while the processor holds
the mutex. -/
def decoderStep {α : Type} (env : Env α) (s : State α) : State α :=
  match s.dpc with
  | DecoderPc.loopTest =>
      if loopCondition env s.frameCnt then { s with dpc := DecoderPc.read }
      else { s with dpc := DecoderPc.signalDone }
  | DecoderPc.read =>
      { s with decoderFrame := env.video[s.sourcePos]?, sourcePos := s.sourcePos + 1,
               dpc := DecoderPc.count }
  | DecoderPc.count =>
      { s with frameCnt := ulongInc env.ulongBits s.frameCnt, dpc := DecoderPc.quitCheck }
  | DecoderPc.quitCheck =>
      if s.decoderQuitLoop then { s with dpc := DecoderPc.signalDone }
      else { s with dpc := DecoderPc.lock }
  | DecoderPc.lock =>
      if s.mutex = none then { s with mutex := some Owner.decoder, dpc := DecoderPc.push }
      else s
  | DecoderPc.push =>
      { s with buffer := s.buffer ++ [s.decoderFrame], pushed := s.pushed ++ [s.decoderFrame],
               pushInWindow := true, raced := s.raced || s.headInWindow,
               dpc := DecoderPc.unlock }
  | DecoderPc.unlock => { s with mutex := none, dpc := DecoderPc.loopTest }
  | DecoderPc.signalDone =>
      { s with decodingDone := true, doneStores := s.doneStores + 1, dpc := DecoderPc.report }
  | DecoderPc.report => { s with dpc := DecoderPc.finished }
  | DecoderPc.finished => s

/-- One statement of the processor lambda.  At `lock` the processor waits while the decoder
holds the mutex; `front()` and `pop()` do not look at the mutex. -/
def processorStep {α : Type} (env : Env α) (s : State α) : State α :=
  match s.ppc with
  | ProcessorPc.lock =>
      if s.mutex = none then
        { s with mutex := some Owner.processor, pushInWindow := false, headInWindow := false,
                 ppc := ProcessorPc.snapshot }
      else s
  | ProcessorPc.snapshot => { s with empty := s.buffer.isEmpty, ppc := ProcessorPc.unlock }
  | ProcessorPc.unlock => { s with mutex := none, ppc := ProcessorPc.quitCheck }
  | ProcessorPc.quitCheck =>
      if s.processorQuitLoop then { s with ppc := ProcessorPc.report }
      else { s with ppc := ProcessorPc.emptyTest }
  | ProcessorPc.emptyTest =>
      if s.empty then { s with ppc := ProcessorPc.doneCheck }
      else { s with ppc := ProcessorPc.front }
  | ProcessorPc.doneCheck =>
      if s.decodingDone then { s with ppc := ProcessorPc.report }
      else { s with ppc := ProcessorPc.idle }
  | ProcessorPc.idle => { s with ppc := ProcessorPc.lock }
  | ProcessorPc.front =>
      match s.buffer with
      | [] =>
          { s with violation := true, headInWindow := true,
                   raced := s.raced || s.pushInWindow, ppc := ProcessorPc.apply }
      | f :: _ =>
          { s with processorFrame := f, headInWindow := true,
                   raced := s.raced || s.pushInWindow, ppc := ProcessorPc.apply }
  | ProcessorPc.apply =>
      match applyOperation env s.processorFrame with
      | none => { s with terminated := true }
      | some g =>
          { s with transformed := s.transformed ++ [s.processorFrame], processorFrame := g,
                   ppc := ProcessorPc.tick }
  | ProcessorPc.tick =>
      { s with counter := s.counter.frameTick env.ulongBits, ppc := ProcessorPc.display }
  | ProcessorPc.display => { s with ppc := ProcessorPc.pop }
  | ProcessorPc.pop =>
      match s.buffer with
      | [] =>
          { s with violation := true, headInWindow := true,
                   raced := s.raced || s.pushInWindow, ppc := ProcessorPc.lock }
      | _ :: rest =>
          { s with buffer := rest, headInWindow := true,
                   raced := s.raced || s.pushInWindow, ppc := ProcessorPc.lock }
  | ProcessorPc.report =>
      { s with counter := env.statsKind.printStatistics env.reportClock s.counter,
               ppc := ProcessorPc.finished }
  | ProcessorPc.finished => s

/-- Who moves next: one of the two workers executes its next statement, or the controller
thread executes one of its two `setQuit(true)` calls. -/
inductive Action where
  | decoder
  | processor
  | quitDecoder
  | quitProcessor
  deriving DecidableEq

/-- One scheduled move.  A process that has been terminated executes nothing further. -/
def step {α : Type} (env : Env α) (s : State α) (a : Action) : State α :=
  if s.terminated = true then s
  else
    match a with
    | Action.decoder => decoderStep env s
    | Action.processor => processorStep env s
    | Action.quitDecoder => { s with decoderQuitLoop := true }
    | Action.quitProcessor => { s with processorQuitLoop := true }

/-- The state after a whole schedule. -/
def exec {α : Type} (env : Env α) (s : State α) (sched : List Action) : State α :=
  sched.foldl (step env) s

end Pipeline

/-! ## The orchestrator (`Lomtec_H264.h` lines 228-277, `Lomtec_H264.cpp` lines 181-260) -/

/-- Data of a decoder object: the `_quitLoop` flag of `VideoStreamWorker`. -/
structure VideoStreamDecoder where
  quitLoop : Bool
  deriving DecidableEq

/-- Data of a processor object: `_quitLoop` of `VideoStreamWorker` and `_decodingDone` of
`AVideoStreamProcessor`. -/
structure VideoStreamProcessor where
  quitLoop : Bool
  decodingDone : Bool
  deriving DecidableEq

/-- A decoder as `make_unique<VideoStreamDecoder>()` constructs it. -/
def VideoStreamDecoder.fresh : VideoStreamDecoder := { quitLoop := false }

/-- A processor as `make_unique<VideoStreamProcessor>()` constructs it. -/
def VideoStreamProcessor.fresh : VideoStreamProcessor :=
  { quitLoop := false, decodingDone := false }

/-- The member `VideoStreamWorker::setQuit` on a decoder. -/
def VideoStreamDecoder.setQuit (value : Bool) (d : VideoStreamDecoder) : VideoStreamDecoder :=
  { d with quitLoop := value }

/-- The member `VideoStreamWorker::setQuit` on a processor. -/
def VideoStreamProcessor.setQuit (value : Bool) (p : VideoStreamProcessor) :
    VideoStreamProcessor :=
  { p with quitLoop := value }

/-- The member `AVideoStreamProcessor::setDone`. -/
def VideoStreamProcessor.setDone (value : Bool) (p : VideoStreamProcessor) :
    VideoStreamProcessor :=
  { p with decodingDone := value }

/-- Lines the controller thread writes to the standard output. -/
inductive Msg where
  | statsCounterNotSet
  | decoderNotSet
  | processorNotSet
  | prompt
  | statistics
  | errorWhenProcessing
  deriving DecidableEq

/-- The members of `Orchestrator`, a `unique_ptr` being `none` while it is null, and two history
flags recording that a worker thread was started. -/
structure Orchestrator (α : Type) where
  videoDecoder : Option VideoStreamDecoder
  videoProcessor : Option VideoStreamProcessor
  statsCounter : Option (StatsKind × AStatsCounter)
  buffer : List (Pipeline.Mat α)
  /-- History: `decode` has started its `feedWorker` thread. -/
  decoderLaunched : Bool
  /-- History: `process` has started its `processWorker` thread. -/
  processorLaunched : Bool
  deriving DecidableEq

namespace Orchestrator

/-- The constructor `Orchestrator(capture)`: three null pointers and an empty queue. -/
def new (α : Type) : Orchestrator α :=
  { videoDecoder := none, videoProcessor := none, statsCounter := none, buffer := [],
    decoderLaunched := false, processorLaunched := false }

/-- The setter `setStatsCounter`. -/
def setStatsCounter {α : Type} (counter : StatsKind × AStatsCounter) (o : Orchestrator α) :
    Orchestrator α :=
  { o with statsCounter := some counter }

/-- The setter `setVideoDecoder`. -/
def setVideoDecoder {α : Type} (decoder : VideoStreamDecoder) (o : Orchestrator α) :
    Orchestrator α :=
  { o with videoDecoder := some decoder }

/-- The setter `setVideoProcessor`. -/
def setVideoProcessor {α : Type} (processor : VideoStreamProcessor) (o : Orchestrator α) :
    Orchestrator α :=
  { o with videoProcessor := some processor }

/-- The orchestrator `main` builds at lines 43-47. -/
def configured (α : Type) : Orchestrator α :=
  setVideoProcessor VideoStreamProcessor.fresh
    (setVideoDecoder VideoStreamDecoder.fresh
      (setStatsCounter (StatsKind.chrono, AStatsCounter.fresh) (new α)))

/-- What one iteration of the command loop meets: `getchar` returns the character `c` (the
clock then reads `now`, used if the iteration prints statistics), or a statement of the
iteration throws. -/
inductive Event where
  | key (c : Int) (now : Int)
  | fault
  deriving DecidableEq

/-- How control leaves the `while (true)` of lines 216-238. -/
inductive LoopExit where
  /-- The statement `return 0` of line 226. -/
  | returnZero
  /-- An exception left the loop and one of the three handlers caught it. -/
  | caught
  /-- Control never leaves: once the events are used up `getchar` has nothing more to deliver
  than `EOF`, which the `default` label ignores. -/
  | never
  deriving DecidableEq

/-- The command loop of lines 216-238 on the controller thread. -/
def commandLoop {α : Type} :
    List Event → Orchestrator α → List Msg → LoopExit × Orchestrator α × List Msg
  | [], o, out => (LoopExit.never, o, out)
  | Event.fault :: _, o, out => (LoopExit.caught, o, out)
  | Event.key c now :: rest, o, out =>
      if c = 113 ∨ c = 81 then (LoopExit.returnZero, o, out ++ [Msg.prompt])
      else if c = 112 ∨ c = 80 then
        commandLoop rest
          { o with statsCounter :=
              o.statsCounter.map (fun kc => (kc.1, kc.1.printStatistics now kc.2)) }
          (out ++ [Msg.prompt, Msg.statistics])
      else commandLoop rest o (out ++ [Msg.prompt])

/-- How a call of `run` ends. -/
inductive Outcome where
  | returned (value : Bool)
  | neverReturns
  deriving DecidableEq

/-- Everything a call of `run` leaves behind. -/
structure RunResult (α : Type) where
  outcome : Outcome
  state : Orchestrator α
  console : List Msg
  deriving DecidableEq

/-- The member `Orchestrator::run` on the controller thread; `t0` is the clock reading of
`startCount`.  Only the controller's own writes are tracked: what the two worker threads do to
the queue, the completion flag and the frame count once launched is the subject of
`Pipeline`. -/
def run {α : Type} (t0 : Int) (events : List Event) (o : Orchestrator α) : RunResult α :=
  match o.statsCounter with
  | none => { outcome := Outcome.returned false, state := o, console := [Msg.statsCounterNotSet] }
  | some (kind, counter) =>
    match o.videoDecoder with
    | none => { outcome := Outcome.returned false, state := o, console := [Msg.decoderNotSet] }
    | some _ =>
      match o.videoProcessor with
      | none =>
          { outcome := Outcome.returned false, state := o, console := [Msg.processorNotSet] }
      | some _ =>
          let started : Orchestrator α :=
            { o with statsCounter := some (kind, kind.startCount t0 counter),
                     decoderLaunched := true, processorLaunched := true }
          match commandLoop events started [] with
          | (LoopExit.returnZero, o1, out) =>
              { outcome := Outcome.returned false, state := o1, console := out }
          | (LoopExit.never, o1, out) =>
              { outcome := Outcome.neverReturns, state := o1, console := out }
          | (LoopExit.caught, o1, out) =>
              { outcome := Outcome.returned true,
                state :=
                  { o1 with videoDecoder := o1.videoDecoder.map (VideoStreamDecoder.setQuit true),
                            videoProcessor :=
                              o1.videoProcessor.map (VideoStreamProcessor.setQuit true) },
                console := out ++ [Msg.errorWhenProcessing] }

/-- All three of counter, decoder and processor have been supplied. -/
def fullyConfigured {α : Type} (o : Orchestrator α) : Prop :=
  o.statsCounter.isSome = true ∧ o.videoDecoder.isSome = true ∧ o.videoProcessor.isSome = true

instance {α : Type} (o : Orchestrator α) : Decidable (fullyConfigured o) := by
  unfold fullyConfigured; infer_instance

/-- The event is `getchar` delivering one of the two quit characters. -/
def Event.isQuit : Event → Bool
  | Event.key c _ => decide (c = 113 ∨ c = 81)
  | Event.fault => false

/-- The event is a thrown exception. -/
def Event.isFault : Event → Bool
  | Event.key _ _ => false
  | Event.fault => true

end Orchestrator

/-! ## Invariants of the worker loops and sample runs -/

namespace Pipeline

/-- The processor has transformed its frame and has not yet popped the queue. -/
def ProcessorPc.afterApply : ProcessorPc → Bool
  | ProcessorPc.tick => true
  | ProcessorPc.display => true
  | ProcessorPc.pop => true
  | _ => false

/-- The processor is between its decision to take a frame and the `pop()` that removes it. -/
def ProcessorPc.holdsHead : ProcessorPc → Bool
  | ProcessorPc.front => true
  | ProcessorPc.apply => true
  | ProcessorPc.tick => true
  | ProcessorPc.display => true
  | ProcessorPc.pop => true
  | _ => false

/-- The processor has taken its emptiness snapshot and has not yet acted on it. -/
def ProcessorPc.snapshotPending : ProcessorPc → Bool
  | ProcessorPc.unlock => true
  | ProcessorPc.quitCheck => true
  | ProcessorPc.emptyTest => true
  | _ => false

/-- What the statement-by-statement semantics keeps true of the queue: the transformed frames
followed by the frames still queued (minus the head while it is being finished) are the frames
pushed; the queue is non-empty wherever the processor is about to touch its head; a snapshot
`empty = false` that has not been acted on yet is still true of the queue. -/
def FifoInv {α : Type} (s : State α) : Prop :=
  s.violation = false
    ∧ s.transformed ++ s.buffer.drop (if s.ppc.afterApply then 1 else 0) = s.pushed
    ∧ (s.ppc.holdsHead = true → s.buffer ≠ [])
    ∧ (s.ppc.snapshotPending = true → s.empty = false → s.buffer ≠ [])
    ∧ (s.ppc = ProcessorPc.apply → s.buffer.head? = some s.processorFrame)

/-- The decoder has executed its store to the completion flag. -/
def DecoderPc.signalled : DecoderPc → Bool
  | DecoderPc.report => true
  | DecoderPc.finished => true
  | _ => false

/-- The decoder has left its `while` loop. -/
def DecoderPc.leftLoop : DecoderPc → Bool
  | DecoderPc.signalDone => true
  | DecoderPc.report => true
  | DecoderPc.finished => true
  | _ => false

/-- The completion flag is stored exactly when the decoder passes line 100: never before, and
once after. -/
def DoneInv {α : Type} (s : State α) : Prop :=
  s.doneStores = (if s.dpc.signalled then 1 else 0) ∧ s.decodingDone = s.dpc.signalled

/-- A small environment for concrete runs: 64-bit `unsigned long`, the advertised count as the
source reports it (converted to `double`), a frame operation that leaves the image as it is,
the chrono counter. -/
def sampleEnv (frameNum : Int) (video : List Nat) : Env Nat :=
  { ulongBits := 64, frameNum := FloatVal.ofInt binary64 frameNum, video := video,
    filter := some, statsKind := StatsKind.chrono, reportClock := 0 }

/-- The decoder reads and counts a frame, then the controller requests it to quit: the decoder
stands at its quit check with the flag set and a frame in hand. -/
def scheduleToQuitCheck : List Action :=
  List.replicate 3 Action.decoder ++ [Action.quitDecoder]

/-- The processor takes its emptiness snapshot of the still empty queue; the decoder then
pushes its only frame, leaves the loop, stores the completion flag and returns; the processor
then runs to its end. -/
def scheduleStaleSnapshot : List Action :=
  List.replicate 3 Action.processor ++ List.replicate 10 Action.decoder
    ++ List.replicate 4 Action.processor

/-- The decoder pushes a first frame; the processor snapshots the queue, finds it non-empty
and arrives at `front()`; the decoder comes round again, acquires the mutex and pushes a second
frame; while the decoder still holds the mutex the processor executes `front()`. -/
def scheduleFrontDuringPush : List Action :=
  List.replicate 7 Action.decoder ++ List.replicate 5 Action.processor
    ++ List.replicate 6 Action.decoder ++ [Action.processor]

/-- The decoder pushes a first frame; the processor snapshots the queue, takes the frame with
`front()`, transforms it, ticks, shows it and arrives at `pop()`; the decoder comes round again,
acquires the mutex and pushes a second frame; while the decoder still holds the mutex the
processor executes `pop()`. -/
def schedulePopDuringPush : List Action :=
  List.replicate 7 Action.decoder ++ List.replicate 9 Action.processor
    ++ List.replicate 6 Action.decoder ++ [Action.processor]

/-- The decoder runs to its end for an advertised count of 2, then the processor runs alone:
ten statements for each frame it takes, seven for the iteration that finds the queue empty and
completion raised. -/
def scheduleDecoderThenProcessor : List Action :=
  List.replicate 17 Action.decoder ++ List.replicate 27 Action.processor

end Pipeline

/-! ## Floating-point values: properties -/

theorem log2Fuel_eq (fuel : Nat) : ∀ n, n ≤ fuel → log2Fuel fuel n = Nat.log2 n := by
  induction fuel with
  | zero =>
    intro n hn
    have h0 : n = 0 := by omega
    subst h0
    simp [log2Fuel, Nat.log2_zero]
  | succ fuel ih =>
    intro n hn
    rw [log2Fuel, Nat.log2]
    by_cases h : 2 ≤ n
    · rw [if_pos h, if_pos h, ih (n / 2) (by omega)]
    · rw [if_neg h, if_neg h]

theorem ilog2_eq (n : Nat) : ilog2 n = Nat.log2 n := log2Fuel_eq n n (Nat.le_refl n)

set_option maxRecDepth 20000 in
theorem ilog2_one : ilog2 1 = 0 := by decide

theorem pow_ilog2_le (n : Nat) (h : n ≠ 0) : 2 ^ ilog2 n ≤ n := by
  rw [ilog2_eq]; exact Nat.log2_self_le h

/-- The binade of a positive integer is the position of its highest bit. -/
theorem binade_one (k : Nat) (hk : k ≠ 0) : binade k 1 = (ilog2 k : Int) := by
  unfold binade
  rw [ilog2_one]
  have h1 : ((ilog2 k : Int) - ((0 : Nat) : Int)).toNat = ilog2 k := by simp
  have h2 : (((0 : Nat) : Int) - (ilog2 k : Int)).toNat = 0 := by simp
  rw [h1, h2]
  simp [pow_ilog2_le k hk]

theorem divRoundHalfEven_ge (N D : Nat) : N / D ≤ divRoundHalfEven N D := by
  unfold divRoundHalfEven
  split_ifs <;> omega

/-- A positive integer converts to a positive `float` or to the positive infinity. -/
theorem ofInt_binary32_pos (k : Nat) (hk : k ≠ 0) :
    FloatVal.ofInt binary32 (k : Int) = FloatVal.posInf
      ∨ ∃ m e, FloatVal.ofInt binary32 (k : Int) = FloatVal.finite m e ∧ 0 < m := by
  have hkpos : (0 : Int) < (k : Int) := by exact_mod_cast Nat.pos_of_ne_zero hk
  have hkne : (k : Int) ≠ 0 := ne_of_gt hkpos
  unfold FloatVal.ofInt roundQuotient
  rw [if_neg hkne]
  split_ifs with hover
  · exact Or.inl rfl
  · right
    refine ⟨_, _, rfl, ?_⟩
    have hsig : 1 ≤ significand binary32 (k : Int).natAbs 1 := by
      simp only [Int.natAbs_ofNat]
      unfold significand
      refine le_trans ?_ (divRoundHalfEven_ge _ _)
      have hq : (quantumExp binary32 k 1).toNat ≤ ilog2 k := by
        unfold quantumExp
        rw [binade_one k hk]
        simp only [binary32]
        omega
      have hD : 1 * 2 ^ (quantumExp binary32 k 1).toNat ≤ k := by
        rw [one_mul]
        exact le_trans (Nat.pow_le_pow_right (by decide) hq) (pow_ilog2_le k hk)
      have hN : k ≤ k * 2 ^ (-(quantumExp binary32 k 1)).toNat :=
        Nat.le_mul_of_pos_right _ (Nat.two_pow_pos _)
      exact (Nat.one_le_div_iff (by positivity)).2 (le_trans hD hN)
    exact_mod_cast hsig

/-- C9 (as stated) fails at the clock reading 0: a first `startCount` that reads 0 leaves the
stored start at 0, so the second call stores its own reading 7, for both counter classes. -/
theorem startCount_twice_at_zero_differs :
    (StatsCounter.startCount 7 (StatsCounter.startCount 0 AStatsCounter.fresh)).startTime
        ≠ (StatsCounter.startCount 0 AStatsCounter.fresh).startTime
      ∧ (StatsCounterChrono.startCount 7
          (StatsCounterChrono.startCount 0 AStatsCounter.fresh)).startTime
        ≠ (StatsCounterChrono.startCount 0 AStatsCounter.fresh).startTime := by
  decide

/-- C9 (amended): on a freshly constructed counter of either class, for every pair of clock
readings `t1 ≠ 0` and `t2`, two successive `startCount` calls leave the counter exactly as the
first call alone does, with `t1` as the stored start instant. -/
theorem startCount_idempotent_of_ne_zero (t1 t2 : Int) (h : t1 ≠ 0) :
    StatsCounter.startCount t2 (StatsCounter.startCount t1 AStatsCounter.fresh)
        = StatsCounter.startCount t1 AStatsCounter.fresh
      ∧ (StatsCounter.startCount t2 (StatsCounter.startCount t1 AStatsCounter.fresh)).startTime
        = t1
      ∧ StatsCounterChrono.startCount t2 (StatsCounterChrono.startCount t1 AStatsCounter.fresh)
        = StatsCounterChrono.startCount t1 AStatsCounter.fresh
      ∧ (StatsCounterChrono.startCount t2
          (StatsCounterChrono.startCount t1 AStatsCounter.fresh)).startTime = t1 := by
  simp [StatsCounter.startCount, StatsCounterChrono.startCount, AStatsCounter.fresh, h]

/-- Witness of `startCount_idempotent_of_ne_zero` at the readings 100 and 250. -/
theorem startCount_idempotent_of_ne_zero_witness :
    (100 : Int) ≠ 0
      ∧ (StatsCounter.startCount 250 (StatsCounter.startCount 100 AStatsCounter.fresh)).startTime
        = 100
      ∧ (StatsCounterChrono.startCount 250
          (StatsCounterChrono.startCount 100 AStatsCounter.fresh)).startTime = 100 :=
  ⟨by decide, (startCount_idempotent_of_ne_zero 100 250 (by decide)).2.1,
    (startCount_idempotent_of_ne_zero 100 250 (by decide)).2.2.2⟩


theorem ofInt_zero (fmt : BinaryFormat) : FloatVal.ofInt fmt 0 = FloatVal.finite 0 0 := by
  simp [FloatVal.ofInt, roundQuotient]

set_option maxRecDepth 20000 in
theorem nanosec_2_sec_eq : nanosec_2_sec = FloatVal.finite 9007199 (-53) := by decide

set_option maxRecDepth 20000 in
theorem mul_zero_nanosec :
    FloatVal.mul binary32 (FloatVal.finite 0 0) nanosec_2_sec = FloatVal.finite 0 0 := by
  rw [nanosec_2_sec_eq]; decide

/-- The `float` quotient of a frame count by a zero elapsed time: NaN for no frames, the
positive infinity otherwise. -/
theorem div_count_by_zero (k : Nat) :
    FloatVal.div binary32 (FloatVal.ofInt binary32 (k : Int)) (FloatVal.finite 0 0)
      = (if k = 0 then FloatVal.nan else FloatVal.posInf) := by
  by_cases hk : k = 0
  · subst hk; decide
  · rw [if_neg hk]
    rcases ofInt_binary32_pos k hk with h | ⟨m, e, h, hm⟩
    · rw [h]; simp [FloatVal.div, FloatVal.signedInf]
    · rw [h]
      have hm0 : m ≠ 0 := ne_of_gt hm
      simp [FloatVal.div, FloatVal.signedInf, hm0, hm]

set_option maxRecDepth 20000 in
/-- The conversion of line 64 rounds: a never-started `StatsCounter` at the clock reading
1793352123 stores the elapsed time 14010563 * 2 ^ 7 = 1793352064. -/
theorem printStatistics_rounds_elapsed :
    (StatsCounter.printStatistics 1793352123 AStatsCounter.fresh).processingTime_s
        = FloatVal.finite 14010563 7
      ∧ (14010563 : Int) * 2 ^ 7 = 1793352064 := by
  decide

set_option maxRecDepth 20000 in
/-- C8 (as stated) fails: with 5 frames counted and the clock reading equal to the start
instant 100, `printStatistics` of either class computes an elapsed time of zero and stores the
`float` quotient of 5 by that zero, which is the positive infinity and not a special-cased
zero. -/
theorem printStatistics_zero_elapsed_divides :
    (StatsCounter.printStatistics 100
        { AStatsCounter.fresh with framesProcessed := 5, startTime := 100 }).processingTime_s
        = FloatVal.finite 0 0
      ∧ (StatsCounter.printStatistics 100
        { AStatsCounter.fresh with framesProcessed := 5, startTime := 100 }).avgSpeed_fps
          = FloatVal.div binary32 (FloatVal.ofInt binary32 5) (FloatVal.finite 0 0)
      ∧ (StatsCounterChrono.printStatistics 100
        { AStatsCounter.fresh with framesProcessed := 5, startTime := 100 }).processingTime_s
        = FloatVal.finite 0 0
      ∧ (StatsCounterChrono.printStatistics 100
        { AStatsCounter.fresh with framesProcessed := 5, startTime := 100 }).avgSpeed_fps
          = FloatVal.div binary32 (FloatVal.ofInt binary32 5) (FloatVal.finite 0 0)
      ∧ FloatVal.div binary32 (FloatVal.ofInt binary32 5) (FloatVal.finite 0 0)
          = FloatVal.posInf
      ∧ FloatVal.posInf ≠ FloatVal.finite 0 0 := by
  decide

/-- C8 (amended): `printStatistics` of either class has no special case.  For every counter and
clock reading it stores the `float` quotient of the frame count by the elapsed time it has just
stored; when the clock reading equals the start instant that elapsed time is zero and the
stored throughput is the quotient by zero (NaN for a frame count of 0, the positive infinity
otherwise); when `startCount` was never called the start instant is 0 and the elapsed time is
the clock reading itself, converted to `float` (and multiplied by `nanosec_2_sec` in the
chrono class). -/
theorem printStatistics_always_divides (c : AStatsCounter) (now : Int) :
    ((StatsCounter.printStatistics now c).avgSpeed_fps
        = FloatVal.div binary32 (FloatVal.ofInt binary32 (c.framesProcessed : Int))
            (StatsCounter.printStatistics now c).processingTime_s
      ∧ (StatsCounterChrono.printStatistics now c).avgSpeed_fps
        = FloatVal.div binary32 (FloatVal.ofInt binary32 (c.framesProcessed : Int))
            (StatsCounterChrono.printStatistics now c).processingTime_s)
      ∧ ((StatsCounter.printStatistics now { c with startTime := now }).processingTime_s
          = FloatVal.finite 0 0
        ∧ (StatsCounter.printStatistics now { c with startTime := now }).avgSpeed_fps
          = (if c.framesProcessed = 0 then FloatVal.nan else FloatVal.posInf)
        ∧ (StatsCounterChrono.printStatistics now { c with startTime := now }).processingTime_s
          = FloatVal.finite 0 0
        ∧ (StatsCounterChrono.printStatistics now { c with startTime := now }).avgSpeed_fps
          = (if c.framesProcessed = 0 then FloatVal.nan else FloatVal.posInf))
      ∧ ((StatsCounter.printStatistics now { c with startTime := 0 }).processingTime_s
          = FloatVal.ofInt binary32 now
        ∧ (StatsCounterChrono.printStatistics now { c with startTime := 0 }).processingTime_s
          = FloatVal.mul binary32 (FloatVal.ofInt binary32 now) nanosec_2_sec) := by
  refine ⟨⟨rfl, rfl⟩, ⟨?_, ?_, ?_, ?_⟩, ⟨?_, ?_⟩⟩
  · simp [StatsCounter.printStatistics, ofInt_zero]
  · simp only [StatsCounter.printStatistics, sub_self, ofInt_zero]
    exact div_count_by_zero c.framesProcessed
  · simp [StatsCounterChrono.printStatistics, ofInt_zero, mul_zero_nanosec]
  · simp only [StatsCounterChrono.printStatistics, sub_self, ofInt_zero, mul_zero_nanosec]
    exact div_count_by_zero c.framesProcessed
  · simp [StatsCounter.printStatistics]
  · simp [StatsCounterChrono.printStatistics]

/-! ## The orchestrator: properties -/

namespace Orchestrator

/-- The command loop writes no member other than the statistics counter. -/
theorem commandLoop_preserves {α : Type} (events : List Event) :
    ∀ (o : Orchestrator α) (out : List Msg),
      (commandLoop events o out).2.1.videoDecoder = o.videoDecoder
        ∧ (commandLoop events o out).2.1.videoProcessor = o.videoProcessor
        ∧ (commandLoop events o out).2.1.buffer = o.buffer := by
  induction events with
  | nil => intro o out; simp [commandLoop]
  | cons e rest ih =>
    intro o out
    cases e with
    | fault => simp [commandLoop]
    | key c now =>
      simp only [commandLoop]
      split_ifs with h1 h2
      · simp
      · simpa using ih _ _
      · exact ih _ _

/-- Events that are neither a quit character nor a fault do not end the command loop: a quit
character after them leaves it through `return 0`. -/
theorem commandLoop_quit {α : Type} (pre : List Event)
    (hpre : ∀ e ∈ pre, e.isQuit = false ∧ e.isFault = false)
    (c now : Int) (hc : c = 113 ∨ c = 81) (rest : List Event) :
    ∀ (o : Orchestrator α) (out : List Msg),
      (commandLoop (pre ++ Event.key c now :: rest) o out).1 = LoopExit.returnZero := by
  induction pre with
  | nil => intro o out; simp only [List.nil_append, commandLoop, if_pos hc]
  | cons e pre ih =>
    intro o out
    have hpre1 : ∀ e ∈ pre, e.isQuit = false ∧ e.isFault = false :=
      fun x hx => hpre x (List.mem_cons_of_mem _ hx)
    have he := hpre e (List.mem_cons_self _ _)
    cases e with
    | fault => simp [Event.isFault] at he
    | key k t =>
      have hk : ¬ (k = 113 ∨ k = 81) := by simpa [Event.isQuit] using he.1
      simp only [List.cons_append, commandLoop, if_neg hk]
      split_ifs with h2
      · exact ih hpre1 _ _
      · exact ih hpre1 _ _

/-- A fault after events that are neither a quit character nor a fault leaves the command loop
through a handler. -/
theorem commandLoop_fault {α : Type} (pre : List Event)
    (hpre : ∀ e ∈ pre, e.isQuit = false ∧ e.isFault = false) (rest : List Event) :
    ∀ (o : Orchestrator α) (out : List Msg),
      (commandLoop (pre ++ Event.fault :: rest) o out).1 = LoopExit.caught := by
  induction pre with
  | nil => intro o out; simp only [List.nil_append, commandLoop]
  | cons e pre ih =>
    intro o out
    have hpre1 : ∀ e ∈ pre, e.isQuit = false ∧ e.isFault = false :=
      fun x hx => hpre x (List.mem_cons_of_mem _ hx)
    have he := hpre e (List.mem_cons_self _ _)
    cases e with
    | fault => simp [Event.isFault] at he
    | key k t =>
      have hk : ¬ (k = 113 ∨ k = 81) := by simpa [Event.isQuit] using he.1
      simp only [List.cons_append, commandLoop, if_neg hk]
      split_ifs with h2
      · exact ih hpre1 _ _
      · exact ih hpre1 _ _

/-- A quit character read before any fault makes `run` execute `return 0`: the result is
`false` and neither worker object has been written. -/
theorem run_quit_returns_zero {α : Type} (t0 : Int) (o : Orchestrator α)
    (hcfg : fullyConfigured o) (pre : List Event)
    (hpre : ∀ e ∈ pre, e.isQuit = false ∧ e.isFault = false)
    (c now : Int) (hc : c = 113 ∨ c = 81) (rest : List Event) :
    (run t0 (pre ++ Event.key c now :: rest) o).outcome = Outcome.returned false
      ∧ (run t0 (pre ++ Event.key c now :: rest) o).state.videoDecoder = o.videoDecoder
      ∧ (run t0 (pre ++ Event.key c now :: rest) o).state.videoProcessor = o.videoProcessor := by
  obtain ⟨hs, hd, hp⟩ := hcfg
  obtain ⟨⟨kind, counter⟩, hs⟩ := Option.isSome_iff_exists.mp hs
  obtain ⟨d, hd⟩ := Option.isSome_iff_exists.mp hd
  obtain ⟨p, hp⟩ := Option.isSome_iff_exists.mp hp
  unfold run
  simp only [hs, hd, hp]
  split
  · next o1 out heq =>
    have hkeep := commandLoop_preserves (pre ++ Event.key c now :: rest)
      ({ o with statsCounter := some (kind, kind.startCount t0 counter),
                decoderLaunched := true, processorLaunched := true } : Orchestrator α) []
    simp only [hd, hp] at hkeep
    rw [heq] at hkeep
    simpa using ⟨hkeep.1, hkeep.2.1⟩
  · next o1 out heq =>
    have h1 := congrArg Prod.fst heq
    rw [commandLoop_quit pre hpre c now hc rest] at h1
    simp at h1
  · next o1 out heq =>
    have h1 := congrArg Prod.fst heq
    rw [commandLoop_quit pre hpre c now hc rest] at h1
    simp at h1

/-- A fault met before any quit character makes `run` reach lines 254-259: both quit flags are
set and the result is `true`. -/
theorem run_fault_returns_true {α : Type} (t0 : Int) (o : Orchestrator α)
    (hcfg : fullyConfigured o) (pre : List Event)
    (hpre : ∀ e ∈ pre, e.isQuit = false ∧ e.isFault = false) (rest : List Event) :
    (run t0 (pre ++ Event.fault :: rest) o).outcome = Outcome.returned true
      ∧ (run t0 (pre ++ Event.fault :: rest) o).state.videoDecoder
          = o.videoDecoder.map (VideoStreamDecoder.setQuit true)
      ∧ (run t0 (pre ++ Event.fault :: rest) o).state.videoProcessor
          = o.videoProcessor.map (VideoStreamProcessor.setQuit true) := by
  obtain ⟨hs, hd, hp⟩ := hcfg
  obtain ⟨⟨kind, counter⟩, hs⟩ := Option.isSome_iff_exists.mp hs
  obtain ⟨d, hd⟩ := Option.isSome_iff_exists.mp hd
  obtain ⟨p, hp⟩ := Option.isSome_iff_exists.mp hp
  unfold run
  simp only [hs, hd, hp]
  split
  · next o1 out heq =>
    have h1 := congrArg Prod.fst heq
    rw [commandLoop_fault pre hpre rest] at h1
    simp at h1
  · next o1 out heq =>
    have h1 := congrArg Prod.fst heq
    rw [commandLoop_fault pre hpre rest] at h1
    simp at h1
  · next o1 out heq =>
    have hkeep := commandLoop_preserves (pre ++ Event.fault :: rest)
      ({ o with statsCounter := some (kind, kind.startCount t0 counter),
                decoderLaunched := true, processorLaunched := true } : Orchestrator α) []
    simp only [hd, hp] at hkeep
    rw [heq] at hkeep
    have hd1 : o1.videoDecoder = some d := hkeep.1
    have hp1 : o1.videoProcessor = some p := hkeep.2.1
    simp [hd1, hp1]

/-- With a member missing `run` returns `false` at one of its three guards and hands back the
orchestrator it was given. -/
theorem run_unconfigured {α : Type} (t0 : Int) (events : List Event) (o : Orchestrator α)
    (h : ¬ fullyConfigured o) :
    (run t0 events o).outcome = Outcome.returned false ∧ (run t0 events o).state = o := by
  unfold run
  cases hs : o.statsCounter with
  | none => simp
  | some kc =>
    cases hd : o.videoDecoder with
    | none => simp
    | some d =>
      cases hp : o.videoProcessor with
      | none => simp
      | some p => exact absurd (by simp [fullyConfigured, hs, hd, hp]) h

/-- C6: whenever at least one of the statistics counter, the decoder or the processor has not
been set, `run` returns `false` and the orchestrator is left exactly as it was: the clock is not
started, no worker is launched, no flag is written and the queue is untouched. -/
theorem run_missing_member_is_atomic {α : Type} (t0 : Int) (events : List Event)
    (o : Orchestrator α)
    (h : o.statsCounter = none ∨ o.videoDecoder = none ∨ o.videoProcessor = none) :
    (run t0 events o).outcome = Outcome.returned false ∧ (run t0 events o).state = o := by
  apply run_unconfigured
  rintro ⟨hs, hd, hp⟩
  rcases h with h | h | h
  · simp [h] at hs
  · simp [h] at hd
  · simp [h] at hp

/-- Witness of `run_missing_member_is_atomic`: counter and decoder set, processor missing, a
quit character waiting on the input. -/
theorem run_missing_member_is_atomic_witness :
    (run 0 [Event.key 113 0]
        (setVideoDecoder VideoStreamDecoder.fresh
          (setStatsCounter (StatsKind.chrono, AStatsCounter.fresh) (new Nat)))).outcome
        = Outcome.returned false
      ∧ (run 0 [Event.key 113 0]
        (setVideoDecoder VideoStreamDecoder.fresh
          (setStatsCounter (StatsKind.chrono, AStatsCounter.fresh) (new Nat)))).state
        = setVideoDecoder VideoStreamDecoder.fresh
          (setStatsCounter (StatsKind.chrono, AStatsCounter.fresh) (new Nat)) :=
  run_missing_member_is_atomic 0 [Event.key 113 0]
    (setVideoDecoder VideoStreamDecoder.fresh
      (setStatsCounter (StatsKind.chrono, AStatsCounter.fresh) (new Nat)))
    (Or.inr (Or.inr rfl))

/-- C4 (fails on the code): on the orchestrator `main` configures, with `q` (or `Q`) as the
first character read, `run` returns through `return 0` and both workers still have their quit
flag at `false`. -/
theorem run_quit_leaves_quit_flags_clear :
    (run 0 [Event.key 113 0] (configured Nat)).outcome = Outcome.returned false
      ∧ (run 0 [Event.key 113 0] (configured Nat)).state.videoDecoder
          = some { quitLoop := false }
      ∧ (run 0 [Event.key 113 0] (configured Nat)).state.videoProcessor
          = some { quitLoop := false, decodingDone := false }
      ∧ (run 0 [Event.key 81 0] (configured Nat)).outcome = Outcome.returned false
      ∧ (run 0 [Event.key 81 0] (configured Nat)).state.videoDecoder
          = some { quitLoop := false }
      ∧ (run 0 [Event.key 81 0] (configured Nat)).state.videoProcessor
          = some { quitLoop := false, decodingDone := false } := by
  decide

/-- C5 (as stated) fails: an error caught while the pipeline runs makes `run` return `true`, and
the result on a user quit is the same value `false` as the result on a missing member. -/
theorem run_result_on_fault_is_true :
    (run 0 [Event.fault] (configured Nat)).outcome = Outcome.returned true
      ∧ (run 0 [Event.key 113 0] (configured Nat)).outcome
          = (run 0 [Event.key 113 0] (new Nat)).outcome := by
  decide

/-- C5 (amended): `run` returns `false` when the statistics counter, the decoder or the
processor is missing, and returns `true` when all three are set and an error is caught in the
command loop before any quit character is read. -/
theorem run_result_missing_or_fault {α : Type} (t0 : Int) (o : Orchestrator α)
    (events pre rest : List Event) :
    ((o.statsCounter = none ∨ o.videoDecoder = none ∨ o.videoProcessor = none) →
        (run t0 events o).outcome = Outcome.returned false)
      ∧ (fullyConfigured o → (∀ e ∈ pre, e.isQuit = false ∧ e.isFault = false) →
        (run t0 (pre ++ Event.fault :: rest) o).outcome = Outcome.returned true) := by
  refine ⟨fun h => ?_, fun hcfg hpre => (run_fault_returns_true t0 o hcfg pre hpre rest).1⟩
  apply (run_unconfigured t0 events o _).1
  rintro ⟨hs, hd, hp⟩
  rcases h with h | h | h
  · simp [h] at hs
  · simp [h] at hd
  · simp [h] at hp

/-- Witness of `run_result_missing_or_fault`: nothing set on one side; on the other the
orchestrator of `main`, a print command, then a fault. -/
theorem run_result_missing_or_fault_witness :
    (run 0 [Event.key 113 0] (new Nat)).outcome = Outcome.returned false
      ∧ (run 0 ([Event.key 112 5] ++ Event.fault :: []) (configured Nat)).outcome
          = Outcome.returned true :=
  ⟨(run_result_missing_or_fault 0 (new Nat) [Event.key 113 0] [] []).1 (Or.inl rfl),
    (run_result_missing_or_fault 0 (configured Nat) [] [Event.key 112 5] []).2
      (by decide) (by decide)⟩

end Orchestrator

/-! ## The worker loops: schedules -/

namespace Pipeline

/-- A property that holds initially and is kept by every move holds after every schedule. -/
theorem exec_induction {α : Type} (env : Env α) (P : State α → Prop)
    (hstep : ∀ s a, P s → P (step env s a)) :
    ∀ (sched : List Action) (s : State α), P s → P (exec env s sched) := by
  intro sched
  induction sched with
  | nil => intro s hs; exact hs
  | cons a sched ih => intro s hs; exact ih _ (hstep s a hs)

/-- A move leaves the state alone, or is a decoder statement, a processor statement or the
setting of a quit flag. -/
theorem step_cases {α : Type} (env : Env α) (P : State α → Prop) (s : State α) (a : Action)
    (hs : P s) (hd : P (decoderStep env s)) (hp : P (processorStep env s))
    (hqd : P { s with decoderQuitLoop := true }) (hqp : P { s with processorQuitLoop := true }) :
    P (step env s a) := by
  unfold step
  split_ifs
  · exact hs
  · cases a
    · exact hd
    · exact hp
    · exact hqd
    · exact hqp

/-- The processor writes none of the decoder's variables. -/
theorem processorStep_decoder_fields {α : Type} (env : Env α) (s : State α) :
    (processorStep env s).dpc = s.dpc ∧ (processorStep env s).pushed = s.pushed
      ∧ (processorStep env s).doneStores = s.doneStores
      ∧ (processorStep env s).decodingDone = s.decodingDone := by
  unfold processorStep
  split
  any_goals (first | exact ⟨rfl, rfl, rfl, rfl⟩ | (split <;> exact ⟨rfl, rfl, rfl, rfl⟩))

/-! ## The processor's exit test against a late push -/

set_option maxRecDepth 20000 in
/-- C2 (fails on the code): one frame advertised and delivered, no quit flag ever set.  The
processor snapshots the empty queue, the decoder then pushes the frame and raises completion,
and the processor, acting on its stale snapshot, sees completion and returns: the counter has
been ticked 0 times, not once, and the pushed frame is still in the queue. -/
theorem processor_exits_with_frame_unprocessed :
    (exec (sampleEnv 1 [7]) (init Nat AStatsCounter.fresh) scheduleStaleSnapshot).ppc
        = ProcessorPc.finished
      ∧ (exec (sampleEnv 1 [7]) (init Nat AStatsCounter.fresh) scheduleStaleSnapshot).dpc
        = DecoderPc.finished
      ∧ (exec (sampleEnv 1 [7]) (init Nat AStatsCounter.fresh)
          scheduleStaleSnapshot).counter.framesProcessed = 0
      ∧ (exec (sampleEnv 1 [7]) (init Nat AStatsCounter.fresh) scheduleStaleSnapshot).pushed
        = [some 7]
      ∧ (exec (sampleEnv 1 [7]) (init Nat AStatsCounter.fresh) scheduleStaleSnapshot).buffer
        = [some 7]
      ∧ (exec (sampleEnv 1 [7]) (init Nat AStatsCounter.fresh)
          scheduleStaleSnapshot).transformed = []
      ∧ (exec (sampleEnv 1 [7]) (init Nat AStatsCounter.fresh)
          scheduleStaleSnapshot).decoderQuitLoop = false
      ∧ (exec (sampleEnv 1 [7]) (init Nat AStatsCounter.fresh)
          scheduleStaleSnapshot).processorQuitLoop = false := by
  decide

/-! ## The decoder loop: cancellation and completion -/

theorem doneInv_init (α : Type) (counter : AStatsCounter) : DoneInv (init α counter) := by
  simp [DoneInv, init, DecoderPc.signalled]

theorem doneInv_decoderStep {α : Type} (env : Env α) (s : State α) (h : DoneInv s) :
    DoneInv (decoderStep env s) := by
  obtain ⟨h1, h2⟩ := h
  unfold DoneInv at *
  cases hp : s.dpc <;> simp only [hp, DecoderPc.signalled] at h1 h2 <;>
    simp only [decoderStep, hp] <;> (try split_ifs) <;>
    simp_all [DecoderPc.signalled]

theorem doneInv_step {α : Type} (env : Env α) (s : State α) (a : Action) (h : DoneInv s) :
    DoneInv (step env s a) := by
  refine step_cases env DoneInv s a h (doneInv_decoderStep env s h) ?_ h h
  obtain ⟨e1, _, e3, e4⟩ := processorStep_decoder_fields env s
  unfold DoneInv
  rw [e1, e3, e4]
  exact h

/-- Once the decoder has left its loop it stays out of it and pushes nothing more. -/
theorem leftLoop_step {α : Type} (env : Env α) (frames : List (Mat α)) (s : State α)
    (a : Action) (h : s.dpc.leftLoop = true ∧ s.pushed = frames) :
    (step env s a).dpc.leftLoop = true ∧ (step env s a).pushed = frames := by
  refine step_cases env (fun t => t.dpc.leftLoop = true ∧ t.pushed = frames) s a h ?_ ?_ h h
  · obtain ⟨h1, h2⟩ := h
    cases hp : s.dpc <;> simp [hp, DecoderPc.leftLoop] at h1 <;>
      simp [decoderStep, hp, DecoderPc.leftLoop, h2]
  · obtain ⟨e1, e2, _, _⟩ := processorStep_decoder_fields env s
    show (processorStep env s).dpc.leftLoop = true ∧ (processorStep env s).pushed = frames
    rw [e1, e2]
    exact h

/-- C7: the decoder statement that finds the quit flag set goes to the completion store and
leaves queue and push history as they are; the loop test that fails goes to the same store;
once out of the loop the decoder never pushes again, whatever is scheduled later; the store
sets the completion flag; and after every schedule from the initial state the flag has been
stored exactly once if the decoder is past the store and not at all otherwise. -/
theorem decoder_quit_pushes_nothing_completion_once {α : Type} (env : Env α)
    (counter : AStatsCounter) (s : State α) (sched later : List Action) :
    (s.dpc = DecoderPc.quitCheck → s.decoderQuitLoop = true →
        (decoderStep env s).dpc = DecoderPc.signalDone
          ∧ (decoderStep env s).buffer = s.buffer
          ∧ (decoderStep env s).pushed = s.pushed)
      ∧ (s.dpc = DecoderPc.loopTest → loopCondition env s.frameCnt = false →
          (decoderStep env s).dpc = DecoderPc.signalDone)
      ∧ (s.dpc.leftLoop = true →
          (exec env s later).dpc.leftLoop = true ∧ (exec env s later).pushed = s.pushed)
      ∧ (s.dpc = DecoderPc.signalDone →
          (decoderStep env s).decodingDone = true
            ∧ (decoderStep env s).doneStores = s.doneStores + 1
            ∧ (decoderStep env s).dpc = DecoderPc.report)
      ∧ (exec env (init α counter) sched).doneStores
          = (if (exec env (init α counter) sched).dpc.signalled then 1 else 0)
      ∧ (exec env (init α counter) sched).decodingDone
          = (exec env (init α counter) sched).dpc.signalled := by
  refine ⟨?_, ?_, ?_, ?_, ?_⟩
  · intro hp hq
    simp [decoderStep, hp, hq]
  · intro hp hc
    simp [decoderStep, hp, hc]
  · intro hl
    exact exec_induction env (fun t => t.dpc.leftLoop = true ∧ t.pushed = s.pushed)
      (leftLoop_step env s.pushed) later s ⟨hl, rfl⟩
  · intro hp
    simp [decoderStep, hp]
  · exact exec_induction env DoneInv (doneInv_step env) sched _ (doneInv_init α counter)

set_option maxRecDepth 20000 in
/-- Witness of `decoder_quit_pushes_nothing_completion_once`: the decoder has read its first
frame when the quit flag is set; its next statement leaves the loop with nothing pushed. -/
theorem decoder_quit_pushes_nothing_completion_once_witness :
    (decoderStep (sampleEnv 2 [10, 20])
        (exec (sampleEnv 2 [10, 20]) (init Nat AStatsCounter.fresh) scheduleToQuitCheck)).dpc
        = DecoderPc.signalDone
      ∧ (decoderStep (sampleEnv 2 [10, 20])
        (exec (sampleEnv 2 [10, 20]) (init Nat AStatsCounter.fresh) scheduleToQuitCheck)).buffer
        = []
      ∧ (decoderStep (sampleEnv 2 [10, 20])
        (exec (sampleEnv 2 [10, 20]) (init Nat AStatsCounter.fresh) scheduleToQuitCheck)).pushed
        = [] :=
  (decoder_quit_pushes_nothing_completion_once (sampleEnv 2 [10, 20]) AStatsCounter.fresh
    (exec (sampleEnv 2 [10, 20]) (init Nat AStatsCounter.fresh) scheduleToQuitCheck)
    [] []).1 (by decide) (by decide)

/-! ## The decoder loop without cancellation -/

set_option maxRecDepth 20000 in
/-- The conversion of the loop condition rounds: with `2 ^ 53 + 4` frames advertised the
condition is already false at the count `2 ^ 53 + 3`, which converts to `2 ^ 53 + 4`. -/
theorem loopCondition_rounds :
    FloatVal.ofInt binary64 (2 ^ 53 + 3) = FloatVal.finite (2 ^ 52 + 2) 1
      ∧ loopCondition (sampleEnv (2 ^ 53 + 4) []) (2 ^ 53 + 3) = false := by
  decide

/-! ## The unlocked `front()` and `pop()` -/

set_option maxRecDepth 20000 in
/-- C1 (fails on the code): two frames advertised and delivered, no quit flag set.  The
processor has snapshotted a queue holding the first frame and stands at `front()`; the decoder
acquires `buffMutex` and pushes the second frame; while the decoder still holds the mutex the
processor executes `front()`, which takes no lock.  The read of the queue and the push are
unordered: a data race, so that the order in which frames come out of the queue is no longer
defined. -/
theorem front_races_with_push :
    (exec (sampleEnv 2 [10, 20]) (init Nat AStatsCounter.fresh) scheduleFrontDuringPush).raced
        = true
      ∧ (exec (sampleEnv 2 [10, 20]) (init Nat AStatsCounter.fresh)
          scheduleFrontDuringPush).mutex = some Owner.decoder
      ∧ (exec (sampleEnv 2 [10, 20]) (init Nat AStatsCounter.fresh)
          scheduleFrontDuringPush).dpc = DecoderPc.unlock
      ∧ (exec (sampleEnv 2 [10, 20]) (init Nat AStatsCounter.fresh)
          scheduleFrontDuringPush).ppc = ProcessorPc.apply
      ∧ (exec (sampleEnv 2 [10, 20]) (init Nat AStatsCounter.fresh)
          scheduleFrontDuringPush).pushed = [some 10, some 20]
      ∧ (exec (sampleEnv 2 [10, 20]) (init Nat AStatsCounter.fresh)
          (scheduleFrontDuringPush.take 18)).raced = false
      ∧ (exec (sampleEnv 2 [10, 20]) (init Nat AStatsCounter.fresh)
          (scheduleFrontDuringPush.take 18)).ppc = ProcessorPc.front := by
  decide

set_option maxRecDepth 20000 in
/-- C10 (fails on the code): two frames advertised and delivered, no quit flag set.  The
processor has snapshotted a queue holding the first frame, has taken it with `front()` and
stands at `pop()`; the decoder acquires `buffMutex` and pushes the second frame; while the
decoder still holds the mutex the processor executes `pop()`, which takes no lock.  The
processor's accesses to the head of the queue and the push are unordered: a data race, so that
the state the queue is in when `pop()` runs is no longer defined. -/
theorem pop_races_with_push :
    (exec (sampleEnv 2 [10, 20]) (init Nat AStatsCounter.fresh) schedulePopDuringPush).raced
        = true
      ∧ (exec (sampleEnv 2 [10, 20]) (init Nat AStatsCounter.fresh)
          schedulePopDuringPush).mutex = some Owner.decoder
      ∧ (exec (sampleEnv 2 [10, 20]) (init Nat AStatsCounter.fresh)
          schedulePopDuringPush).dpc = DecoderPc.unlock
      ∧ (exec (sampleEnv 2 [10, 20]) (init Nat AStatsCounter.fresh)
          schedulePopDuringPush).ppc = ProcessorPc.lock
      ∧ (exec (sampleEnv 2 [10, 20]) (init Nat AStatsCounter.fresh)
          (schedulePopDuringPush.take 22)).ppc = ProcessorPc.pop
      ∧ (exec (sampleEnv 2 [10, 20]) (init Nat AStatsCounter.fresh)
          (schedulePopDuringPush.take 22)).mutex = some Owner.decoder
      ∧ (exec (sampleEnv 2 [10, 20]) (init Nat AStatsCounter.fresh)
          (schedulePopDuringPush.take 21)).raced = false := by
  decide

/-! ## What holds of the queue as long as no access has raced -/

theorem fifoInv_init (α : Type) (counter : AStatsCounter) : FifoInv (init α counter) := by
  simp [FifoInv, init, ProcessorPc.afterApply, ProcessorPc.holdsHead,
    ProcessorPc.snapshotPending]

theorem fifoInv_decoderStep {α : Type} (env : Env α) (s : State α) (h : FifoInv s) :
    FifoInv (decoderStep env s) := by
  obtain ⟨h1, h2, h3, h4, h5⟩ := h
  unfold decoderStep
  split
  · split <;> exact ⟨h1, h2, h3, h4, h5⟩
  · exact ⟨h1, h2, h3, h4, h5⟩
  · exact ⟨h1, h2, h3, h4, h5⟩
  · split <;> exact ⟨h1, h2, h3, h4, h5⟩
  · split <;> exact ⟨h1, h2, h3, h4, h5⟩
  · refine ⟨h1, ?_, ?_, ?_, ?_⟩
    · show s.transformed
          ++ (s.buffer ++ [s.decoderFrame]).drop (if s.ppc.afterApply then 1 else 0)
        = s.pushed ++ [s.decoderFrame]
      rw [← h2]
      cases hb : s.buffer with
      | nil =>
        have hna : s.ppc.afterApply = false := by
          cases hp : s.ppc <;> simp [ProcessorPc.afterApply] <;>
            exact absurd hb (h3 (by simp [hp, ProcessorPc.holdsHead]))
        simp [hna]
      | cons f rest => split_ifs <;> simp
    · intro _; show s.buffer ++ [s.decoderFrame] ≠ []; simp
    · intro _ _; show s.buffer ++ [s.decoderFrame] ≠ []; simp
    · intro hp
      show (s.buffer ++ [s.decoderFrame]).head? = some s.processorFrame
      have hhead := h5 hp
      cases hb : s.buffer with
      | nil => simp [hb] at hhead
      | cons f rest => simpa [hb] using hhead
  · exact ⟨h1, h2, h3, h4, h5⟩
  · exact ⟨h1, h2, h3, h4, h5⟩
  · exact ⟨h1, h2, h3, h4, h5⟩
  · exact ⟨h1, h2, h3, h4, h5⟩

theorem fifoInv_processorStep {α : Type} (env : Env α) (s : State α) (h : FifoInv s) :
    FifoInv (processorStep env s) := by
  obtain ⟨h1, h2, h3, h4, h5⟩ := h
  cases hp : s.ppc with
  | lock =>
    simp only [hp, ProcessorPc.afterApply, ProcessorPc.holdsHead] at h2 h3
    simp only [processorStep, hp]
    split
    · exact ⟨h1, by simpa [ProcessorPc.afterApply] using h2, by simp [ProcessorPc.holdsHead],
        by simp [ProcessorPc.snapshotPending], by simp⟩
    · exact ⟨h1, by simpa [hp, ProcessorPc.afterApply] using h2,
        by simp [hp, ProcessorPc.holdsHead], by simp [hp, ProcessorPc.snapshotPending],
        by simp [hp]⟩
  | snapshot =>
    simp only [hp, ProcessorPc.afterApply, ProcessorPc.holdsHead] at h2 h3
    simp only [processorStep, hp]
    refine ⟨h1, by simpa [ProcessorPc.afterApply] using h2, by simp [ProcessorPc.holdsHead],
      ?_, by simp⟩
    intro _ he hb
    have hempty : s.buffer.isEmpty = false := he
    have hnil : s.buffer = [] := hb
    simp [hnil] at hempty
  | unlock =>
    simp only [hp, ProcessorPc.afterApply, ProcessorPc.holdsHead,
      ProcessorPc.snapshotPending] at h2 h3 h4
    simp only [processorStep, hp]
    exact ⟨h1, by simpa [ProcessorPc.afterApply] using h2, by simp [ProcessorPc.holdsHead],
      fun _ he => h4 trivial he, by simp⟩
  | quitCheck =>
    simp only [hp, ProcessorPc.afterApply, ProcessorPc.holdsHead,
      ProcessorPc.snapshotPending] at h2 h3 h4
    simp only [processorStep, hp]
    split
    · exact ⟨h1, by simpa [ProcessorPc.afterApply] using h2, by simp [ProcessorPc.holdsHead],
        by simp [ProcessorPc.snapshotPending], by simp⟩
    · exact ⟨h1, by simpa [ProcessorPc.afterApply] using h2, by simp [ProcessorPc.holdsHead],
        fun _ he => h4 trivial he, by simp⟩
  | emptyTest =>
    simp only [hp, ProcessorPc.afterApply, ProcessorPc.holdsHead,
      ProcessorPc.snapshotPending] at h2 h3 h4
    simp only [processorStep, hp]
    split
    · exact ⟨h1, by simpa [ProcessorPc.afterApply] using h2, by simp [ProcessorPc.holdsHead],
        by simp [ProcessorPc.snapshotPending], by simp⟩
    · next he =>
      have hne : s.buffer ≠ [] := h4 trivial (by simpa using he)
      exact ⟨h1, by simpa [ProcessorPc.afterApply] using h2, fun _ => hne,
        by simp [ProcessorPc.snapshotPending], by simp⟩
  | doneCheck =>
    simp only [hp, ProcessorPc.afterApply, ProcessorPc.holdsHead] at h2 h3
    simp only [processorStep, hp]
    split
    · exact ⟨h1, by simpa [ProcessorPc.afterApply] using h2, by simp [ProcessorPc.holdsHead],
        by simp [ProcessorPc.snapshotPending], by simp⟩
    · exact ⟨h1, by simpa [ProcessorPc.afterApply] using h2, by simp [ProcessorPc.holdsHead],
        by simp [ProcessorPc.snapshotPending], by simp⟩
  | idle =>
    simp only [hp, ProcessorPc.afterApply, ProcessorPc.holdsHead] at h2 h3
    simp only [processorStep, hp]
    exact ⟨h1, by simpa [ProcessorPc.afterApply] using h2, by simp [ProcessorPc.holdsHead],
      by simp [ProcessorPc.snapshotPending], by simp⟩
  | front =>
    simp only [hp, ProcessorPc.afterApply, ProcessorPc.holdsHead] at h2 h3
    have hne : s.buffer ≠ [] := h3 trivial
    simp only [processorStep, hp]
    split
    · next hb => exact absurd hb hne
    · next f rest hb =>
      exact ⟨h1, by simpa [ProcessorPc.afterApply] using h2, fun _ => hne,
        by simp [ProcessorPc.snapshotPending], fun _ => by simp [hb]⟩
  | apply =>
    simp only [hp, ProcessorPc.afterApply, ProcessorPc.holdsHead] at h2 h3 h5
    have hne : s.buffer ≠ [] := h3 trivial
    have hhead := h5 trivial
    simp only [processorStep, hp]
    split
    · exact ⟨h1, by simpa [hp, ProcessorPc.afterApply] using h2,
        fun _ => hne, by simp [hp, ProcessorPc.snapshotPending], fun _ => hhead⟩
    · next g hg =>
      refine ⟨h1, ?_, fun _ => hne, by simp [ProcessorPc.snapshotPending], by simp⟩
      show s.transformed ++ [s.processorFrame]
          ++ s.buffer.drop (if ProcessorPc.tick.afterApply then 1 else 0) = s.pushed
      rw [← h2]
      cases hb : s.buffer with
      | nil => exact absurd hb hne
      | cons f rest =>
        simp [hb] at hhead
        simp [ProcessorPc.afterApply, hhead]
  | tick =>
    simp only [hp, ProcessorPc.afterApply, ProcessorPc.holdsHead] at h2 h3
    simp only [processorStep, hp]
    exact ⟨h1, by simpa [ProcessorPc.afterApply] using h2, fun _ => h3 trivial,
      by simp [ProcessorPc.snapshotPending], by simp⟩
  | display =>
    simp only [hp, ProcessorPc.afterApply, ProcessorPc.holdsHead] at h2 h3
    simp only [processorStep, hp]
    exact ⟨h1, by simpa [ProcessorPc.afterApply] using h2, fun _ => h3 trivial,
      by simp [ProcessorPc.snapshotPending], by simp⟩
  | pop =>
    simp only [hp, ProcessorPc.afterApply, ProcessorPc.holdsHead] at h2 h3
    have hne : s.buffer ≠ [] := h3 trivial
    simp only [processorStep, hp]
    split
    · next hb => exact absurd hb hne
    · next f rest hb =>
      refine ⟨h1, ?_, by simp [ProcessorPc.holdsHead], by simp [ProcessorPc.snapshotPending],
        by simp⟩
      simpa [ProcessorPc.afterApply, hb] using h2
  | report =>
    simp only [hp, ProcessorPc.afterApply, ProcessorPc.holdsHead] at h2 h3
    simp only [processorStep, hp]
    exact ⟨h1, by simpa [ProcessorPc.afterApply] using h2, by simp [ProcessorPc.holdsHead],
      by simp [ProcessorPc.snapshotPending], by simp⟩
  | finished =>
    simp only [processorStep, hp]
    exact ⟨h1, h2, h3, h4, h5⟩

theorem fifoInv_step {α : Type} (env : Env α) (s : State α) (a : Action) (h : FifoInv s) :
    FifoInv (step env s a) :=
  step_cases env FifoInv s a h (fifoInv_decoderStep env s h) (fifoInv_processorStep env s h)
    h h

/-- As long as no `front()` or `pop()` has raced with a push, the frames transformed are a
prefix of the frames pushed, no `front()` or `pop()` has met an empty queue, and the queue is
non-empty wherever the processor is about to touch its head.  A run in which the race has
happened is outside this statement: there the statement-by-statement semantics is only one of
the behaviours the program may show. -/
theorem fifo_order_while_race_free {α : Type} (env : Env α) (counter : AStatsCounter)
    (sched : List Action) (_hrace : (exec env (init α counter) sched).raced = false) :
    (exec env (init α counter) sched).transformed <+: (exec env (init α counter) sched).pushed
      ∧ (exec env (init α counter) sched).violation = false
      ∧ ((exec env (init α counter) sched).ppc.holdsHead = true →
          (exec env (init α counter) sched).buffer ≠ []) := by
  have h := exec_induction env FifoInv (fifoInv_step env) sched _ (fifoInv_init α counter)
  exact ⟨⟨_, h.2.1⟩, h.1, h.2.2.1⟩

set_option maxRecDepth 20000 in
/-- A run without a race: the decoder has finished before the processor starts, and the
processor then transforms and counts both frames, in order, and returns. -/
theorem decoder_then_processor_processes_all :
    (exec (sampleEnv 2 [10, 20]) (init Nat AStatsCounter.fresh)
        scheduleDecoderThenProcessor).raced = false
      ∧ (exec (sampleEnv 2 [10, 20]) (init Nat AStatsCounter.fresh)
          scheduleDecoderThenProcessor).transformed = [some 10, some 20]
      ∧ (exec (sampleEnv 2 [10, 20]) (init Nat AStatsCounter.fresh)
          scheduleDecoderThenProcessor).counter.framesProcessed = 2
      ∧ (exec (sampleEnv 2 [10, 20]) (init Nat AStatsCounter.fresh)
          scheduleDecoderThenProcessor).buffer = []
      ∧ (exec (sampleEnv 2 [10, 20]) (init Nat AStatsCounter.fresh)
          scheduleDecoderThenProcessor).ppc = ProcessorPc.finished := by
  decide

set_option maxRecDepth 20000 in
/-- The same schedule on a source that advertises 2 frames and delivers 1: the processor
transforms the image, then hands the empty matrix to `applyOperation`, which throws, and the
process is terminated with one frame counted. -/
theorem processor_terminates_on_empty_frame :
    (exec (sampleEnv 2 [10]) (init Nat AStatsCounter.fresh)
        scheduleDecoderThenProcessor).terminated = true
      ∧ (exec (sampleEnv 2 [10]) (init Nat AStatsCounter.fresh)
          scheduleDecoderThenProcessor).pushed = [some 10, none]
      ∧ (exec (sampleEnv 2 [10]) (init Nat AStatsCounter.fresh)
          scheduleDecoderThenProcessor).transformed = [some 10]
      ∧ (exec (sampleEnv 2 [10]) (init Nat AStatsCounter.fresh)
          scheduleDecoderThenProcessor).counter.framesProcessed = 1
      ∧ (exec (sampleEnv 2 [10]) (init Nat AStatsCounter.fresh)
          scheduleDecoderThenProcessor).ppc = ProcessorPc.apply := by
  decide

end Pipeline

end Lomtec
